import Mathlib

/-!
# Label detection handler (`labeldetection/main.go`)

A shallow embedding of the event handler that reacts to a storage
"finalize" notification, asks the vision backend for the objects in the
uploaded image and stores the labels next to the image.

Go strings are embedded as Lean `String`s.  Every string the handler
touches is either a literal of the program or the content of a proto3
`string` field (message attributes, annotation names), so it is valid
UTF-8 and has a `String` counterpart.
-/

namespace LabelDetection

/-! ## The fragment of package `fmt` used by the handler -/

/-- Operand of a formatting call: a Go `string` (also the text of an
`error`) or a Go `int`. -/
inductive Arg where
  | str (s : String)
  | int (n : Int)

/-- Decimal rendering of a Go `int`, as produced by the verb `%d`. -/
def formatInt : Int → List Char
  | Int.ofNat m => Nat.toDigits 10 m
  | Int.negSucc m => '-' :: Nat.toDigits 10 (m + 1)

/-- Interpreter of a format string over its operands.  The verbs `%s`, `%d`,
`%v` and `%%` are covered, each with an operand of the matching kind and with
exactly as many operands as verbs.  Every other combination (flags, widths,
other verbs, a missing, surplus or ill-typed operand) is outside the fragment
and yields `none`. -/
def sprintfAux : List Char → List Arg → Option (List Char)
  | [], [] => some []
  | [], _ :: _ => none
  | c :: rest, args =>
    if c = '%' then
      match rest, args with
      | [], _ => none
      | v :: rest, args =>
        if v = '%' then (sprintfAux rest args).map (fun out => '%' :: out)
        else match args with
          | [] => none
          | Arg.str s :: args =>
            if v = 's' ∨ v = 'v' then (sprintfAux rest args).map (fun out => s.data ++ out)
            else none
          | Arg.int n :: args =>
            if v = 'd' ∨ v = 'v' then (sprintfAux rest args).map (fun out => formatInt n ++ out)
            else none
    else (sprintfAux rest args).map (fun out => c :: out)

/-- The call `fmt.Sprintf(format, a...)`; `none` when the call leaves the
modelled fragment. -/
def Sprintf (format : String) (a : List Arg) : Option String :=
  (sprintfAux format.data a).map String.mk

/-! ## Locator -/

/-- The function `getObjectURI` of the source.  Format and operands lie in
the modelled fragment of `fmt`, so the default is never taken. -/
def getObjectURI (bucketID objectID : String) : String :=
  (Sprintf "gs://%s/%s" [Arg.str bucketID, Arg.str objectID]).getD ""

/-! ## Message attributes -/

/-- A Go `error`: `none` is `nil`, `some msg` is an error whose `Error()`
text is `msg`. -/
abbrev GoError := Option String

/-- The call `fmt.Errorf(format, a...)`. -/
def Errorf (format : String) (a : List Arg) : GoError :=
  some ((Sprintf format a).getD "")

/-- The type `pubsub.Message`, restricted to the field the handler reads.  A
Go map is a finite map with unique keys; the `nil` map behaves as the empty
one under lookup. -/
structure PubsubMessage where
  Attributes : AList (fun _ : String => String)

/-- The function `getAttribute` of the source.  The message is passed by
pointer: `none` is the `nil` pointer.  The result is Go's pair
`(string, error)`. -/
def getAttribute (attributeName : String) (pubsubMsg : Option PubsubMessage) : String × GoError :=
  match pubsubMsg with
  | none => ("", Errorf "pubsubMsg is nil" [])
  | some msg =>
    match msg.Attributes.lookup attributeName with
    | none => ("", Errorf "%s not found in Data.Attributes" [Arg.str attributeName])
    | some attributeValue => (attributeValue, none)

/-- The function `getBucketID` of the source. -/
def getBucketID (pubsubMsg : Option PubsubMessage) : String × GoError :=
  getAttribute "bucketId" pubsubMsg

/-- The function `getobjectID` of the source. -/
def getobjectID (pubsubMsg : Option PubsubMessage) : String × GoError :=
  getAttribute "objectId" pubsubMsg

/-! ## Labels -/

/-- The struct `labelWithConfidenceScore` of the source. -/
structure labelWithConfidenceScore where
  Label : String
  Confidence : Int
  deriving DecidableEq, Repr

/-- The method `String` of `labelWithConfidenceScore`.  Format and operands
lie in the modelled fragment of `fmt`, so the default is never taken. -/
def labelWithConfidenceScore.String (lwcs : labelWithConfidenceScore) : String :=
  (Sprintf "Label:%s Confidence:%d%%" [Arg.str lwcs.Label, Arg.int lwcs.Confidence]).getD ""

/-- The type `visionpb.LocalizedObjectAnnotation`, restricted to the two
fields the handler reads.  `Score` is a `float32` in the library; its carrier
`F` is a parameter of the embedding, taken at `Float32` where the conversion
of the score matters. -/
structure LocalizedObjectAnnotation (F : Type) where
  Name : String
  Score : F

/-- The body of the `range` loop of `tolabelWithConfidenceScore`: the
annotations still to visit, the index of the next one, and the slice being
filled.  Slice elements are pointers; `none` is a `nil` pointer, whose field
access panics (result `none`).  `percent x` stands for `int(x * 100)`. -/
def tolabelLoop {F : Type} (percent : F → Int) :
    List (Option ( LocalizedObjectAnnotation F)) → Nat → List labelWithConfidenceScore →
      Option (List labelWithConfidenceScore)
  | [], _, labels => some labels
  | none :: _, _, _ => none
  | some ann :: rest, idx, labels =>
    let labels := labels.set idx { labels.getD idx ⟨"", 0⟩ with Label := ann.Name }
    let labels := labels.set idx { labels.getD idx ⟨"", 0⟩ with Confidence := percent ann.Score }
    tolabelLoop percent rest (idx + 1) labels

/-- The function `tolabelWithConfidenceScore` of the source: a slice of
zero values of the input length, filled index by index. -/
def tolabelWithConfidenceScore {F : Type} (percent : F → Int)
    (locObjAnnots : List (Option ( LocalizedObjectAnnotation F))) :
    Option (List labelWithConfidenceScore) :=
  tolabelLoop percent locObjAnnots 0 (List.replicate locObjAnnots.length ⟨"", 0⟩)

/-! ## Scores

The score of an annotation is a Go `float32`.  A `float32` is given by its
IEEE-754 binary32 bit pattern, and magnitudes are counted in units of
`2 ^ (-150)`, in which every finite `float32` is a natural number. -/

/-- The number of low bits of `s` that a 24-bit significand cannot hold: the
least `k` from the start value on with `s / 2 ^ k < 2 ^ 24`. -/
def excessBits : Nat → Nat → Nat → Nat
  | 0, _, k => k
  | fuel + 1, s, k => if s / 2 ^ k < 2 ^ 24 then k else excessBits fuel s (k + 1)

/-- What the handler depends on and the embedding does not compute: the
`float32` arithmetic of `int(x * 100)` and the answers of the vision and
storage services. -/
structure Env (F : Type) where
  /-- The value of `int(x * 100)` for a `float32` score `x`. -/
  percent : F → Int
  /-- Error of `vision.NewImageAnnotatorClient`, `none` on success. -/
  newImageAnnotatorClient : GoError
  /-- Answer of `client.LocalizeObjects` for the image at a locator. -/
  localizeObjects : String → Except String (List (Option ( LocalizedObjectAnnotation F)))
  /-- Error of `storage.NewClient`, `none` on success. -/
  newStorageClient : GoError
  /-- Error of `wc.Close()` for a bucket, an object name and the bytes
  written, `none` on success. -/
  writerClose : String → String → String → GoError

/-- A line printed by the handler, by call site, with the operands passed to
`fmt.Printf`. -/
inductive LogLine where
  | invalidType (eventType : String)
  | dataError (err : String)
  | raw (err : String)
  | labelError (err : String)
  | summary (confidence : Int) (label objectURI : String)
  deriving DecidableEq, Repr

/-- An observable action of the handler. -/
inductive Effect where
  | print (line : LogLine)
  | newImageAnnotatorClient
  | localizeObjects (objectURI : String)
  | closeImageAnnotatorClient
  | newStorageClient
  /-- A writer opened on `object` in `bucket`, `content` written to it, and
  the writer closed. -/
  | write (bucket object content : String)
  deriving DecidableEq, Repr

/-- How a call of the handler ends. -/
inductive Outcome where
  | returned
  | panicked
  deriving DecidableEq, Repr

/-- The storage writes of a trace, as (bucket, object, content). -/
def storageWrites : List Effect → List (String × String × String)
  | [] => []
  | Effect.write b o c :: rest => (b, o, c) :: storageWrites rest
  | _ :: rest => storageWrites rest

/-- The locators submitted to the classification backend in a trace. -/
def backendCalls : List Effect → List String
  | [] => []
  | Effect.localizeObjects u :: rest => u :: backendCalls rest
  | _ :: rest => backendCalls rest

/-! ## Writer, classification client, handler -/

/-- The call `fmt.Fprintln(wc, s)`: the bytes appended to the writer. -/
def Fprintln (s : String) : String := s ++ "\n"

/-- The function `writeToGcs` of the source. -/
def writeToGcs {F : Type} (E : Env F) (bucketID objectID : String)
    (labels : List labelWithConfidenceScore) : List Effect × GoError :=
  match E.newStorageClient with
  | some err => ([Effect.newStorageClient], some err)
  | none =>
    let wc := labels.foldl (fun wc label => wc ++ Fprintln label.String) ""
    ([Effect.newStorageClient, Effect.write bucketID objectID wc],
      E.writerClose bucketID objectID wc)

/-- The function `extractLabels` of the source.  `none` is a panic, otherwise
Go's pair `(labels, error)`. -/
def extractLabels {F : Type} (E : Env F) (objectURI : String) :
    List Effect × Option (List labelWithConfidenceScore × GoError) :=
  match E.newImageAnnotatorClient with
  | some err =>
    ([Effect.newImageAnnotatorClient],
      some ([], Errorf "Failed to create client: %v" [Arg.str err]))
  | none =>
    let calls := [Effect.newImageAnnotatorClient, Effect.localizeObjects objectURI,
      Effect.closeImageAnnotatorClient]
    match E.localizeObjects objectURI with
    | Except.error err =>
      (calls, some ([], Errorf "Failed to get localized object annotations: %v" [Arg.str err]))
    | Except.ok localizedObjectAnnotations =>
      match tolabelWithConfidenceScore E.percent localizedObjectAnnotations with
      | none => (calls, none)
      | some labels => (calls, some (labels, none))

/-- The variable `finalizeEventType` of the source. -/
def finalizeEventType : String := "com.google.storage.finalize"

/-- What the handler reads of a `cloudevents.Event`: its context (`none` is
`nil`, otherwise the value of `GetType()`), and what `DataAs` decodes the
payload to.  `GetType` and `DataAs` are taken to return; `String` prints
the context through a method call on it, so it panics on a `nil` context. -/
structure Event where
  Context : Option String
  Data : Except String PubsubMessage

/-- The function `processEvent` of the source: the trace of its actions and
how the call ends. -/
def processEvent {F : Type} (E : Env F) (event : Event) : List Effect × Outcome :=
  match event.Context with
  | none =>
    -- the operand `event.String()` of the print is evaluated first and
    -- dereferences the nil context
    ([], Outcome.panicked)
  | some eventType =>
    if eventType ≠ finalizeEventType then
      ([Effect.print (LogLine.invalidType eventType)], Outcome.returned)
    else
      match event.Data with
      | Except.error err => ([Effect.print (LogLine.dataError err)], Outcome.returned)
      | Except.ok pubsubMsg =>
        match getBucketID (some pubsubMsg) with
        | (_, some err) => ([Effect.print (LogLine.raw err)], Outcome.returned)
        | (bucketID, none) =>
          match getobjectID (some pubsubMsg) with
          | (_, some err) => ([Effect.print (LogLine.raw err)], Outcome.returned)
          | (objectID, none) =>
            let objectURI := getObjectURI bucketID objectID
            match extractLabels E objectURI with
            | (calls, none) => (calls, Outcome.panicked)
            | (calls, some (_, some err)) =>
              (calls ++ [Effect.print (LogLine.labelError err)], Outcome.returned)
            | (calls, some (labels, none)) =>
              match labels with
              | [] => (calls, Outcome.panicked)
              | first :: _ =>
                let summary := Effect.print
                  (LogLine.summary first.Confidence first.Label objectURI)
                match writeToGcs E bucketID (objectID ++ ".attributes.txt") labels with
                | (writes, some err) =>
                  (calls ++ summary :: writes ++ [Effect.print (LogLine.raw err)],
                    Outcome.returned)
                | (writes, none) => (calls ++ summary :: writes, Outcome.returned)

/-! ## Reading an artifact back -/

/-- The newline-terminated lines of a text, terminators removed; a final
piece without terminator counts as a line when it is not empty. -/
def splitLines : List Char → List (List Char)
  | [] => []
  | c :: cs =>
    if c = '\n' then [] :: splitLines cs
    else
      match splitLines cs with
      | [] => [[c]]
      | line :: lines => (c :: line) :: lines

/-- The lines of a text, as strings. -/
def parseLines (text : String) : List String :=
  (splitLines text.data).map String.mk

/-- An environment in which every service call succeeds, the backend
reporting `anns` for every image. -/
def okEnv {F : Type} (percent : F → Int) (anns : List ( LocalizedObjectAnnotation F)) : Env F where
  percent := percent
  newImageAnnotatorClient := none
  localizeObjects := fun _ => Except.ok (anns.map some)
  newStorageClient := none
  writerClose := fun _ _ _ => none

/-- An environment in which the backend reports `anns` for every image and
the storage client cannot be created. -/
def noStorageEnv {F : Type} (percent : F → Int) (anns : List ( LocalizedObjectAnnotation F)) :
    Env F where
  percent := percent
  newImageAnnotatorClient := none
  localizeObjects := fun _ => Except.ok (anns.map some)
  newStorageClient := some "storage: no credentials"
  writerClose := fun _ _ _ => none

/-- A payload with the given attributes. -/
def payload (attrs : List (String × String)) : PubsubMessage :=
  ⟨attrs.foldr (fun kv m => AList.insert kv.1 kv.2 m) ∅⟩

/-- Exact-arithmetic instance of the score conversion, for a score given as
a fraction (numerator, denominator): the fraction times 100, rounded toward
zero. -/
def truncPercent (score : Nat × Nat) : Int := Int.ofNat (score.1 * 100 / score.2)

/-- The label made of one annotation. -/
def toLabel {F : Type} (percent : F → Int) (ann : LocalizedObjectAnnotation F) :
    labelWithConfidenceScore :=
  ⟨ann.Name, percent ann.Score⟩

/-- The line of one label result, as the artifact format prescribes it. -/
def expectedLine (label : String) (confidence : Int) : String :=
  "Label:" ++ label ++ " Confidence:" ++ String.mk (formatInt confidence) ++ "%"

/-! ## Formatting lemmas -/

theorem sprintfAux_uri (b o : String) :
    sprintfAux "gs://%s/%s".data [Arg.str b, Arg.str o]
      = some ("gs://".data ++ b.data ++ "/".data ++ o.data) := by
  simp [sprintfAux]

theorem getObjectURI_eq (b o : String) : getObjectURI b o = "gs://" ++ b ++ "/" ++ o := by
  unfold getObjectURI Sprintf
  rw [sprintfAux_uri]
  apply String.ext
  simp

theorem getObjectURI_data (b o : String) :
    (getObjectURI b o).data = "gs://".data ++ (b.data ++ '/' :: o.data) := by
  rw [getObjectURI_eq]
  simp

/-- Two texts split at their first separator agree piecewise. -/
theorem append_sep_inj (sep : Char) :
    ∀ (b1 b2 o1 o2 : List Char), sep ∉ b1 → sep ∉ b2 →
      b1 ++ sep :: o1 = b2 ++ sep :: o2 → b1 = b2 ∧ o1 = o2
  | [], [], o1, o2, _, _, h => by simpa using h
  | [], c :: b2, o1, o2, _, h2, h => by
    simp only [List.nil_append, List.cons_append, List.cons.injEq] at h
    exact absurd (by simp [h.1]) h2
  | c :: b1, [], o1, o2, h1, _, h => by
    simp only [List.nil_append, List.cons_append, List.cons.injEq] at h
    exact absurd (by simp [h.1]) h1
  | c :: b1, d :: b2, o1, o2, h1, h2, h => by
    simp only [List.cons_append, List.cons.injEq] at h
    have ih := append_sep_inj sep b1 b2 o1 o2
      (fun hm => h1 (List.mem_cons_of_mem _ hm)) (fun hm => h2 (List.mem_cons_of_mem _ hm)) h.2
    exact ⟨by rw [h.1, ih.1], ih.2⟩

/-! ## Claims on the locator -/

/-- C1: for every bucket ID and object ID, the empty string included,
`getObjectURI` returns "gs://", then the bucket ID, then "/", then the object
ID, unchanged; in particular "b" and "o" give "gs://b/o". -/
theorem C1_getObjectURI_concat :
    (∀ bucketID objectID : String,
      getObjectURI bucketID objectID = "gs://" ++ bucketID ++ "/" ++ objectID) ∧
    getObjectURI "b" "o" = "gs://b/o" ∧ getObjectURI "" "" = "gs:///" :=
  ⟨getObjectURI_eq, by decide, by decide⟩

/-- C10: among bucket IDs without "/", `getObjectURI` identifies the pair
(bucket, object) uniquely; without that condition the pairs ("a", "b/c") and
("a/b", "c") share one locator. -/
theorem C10_getObjectURI_injective :
    (∀ b1 b2 o1 o2 : String, '/' ∉ b1.data → '/' ∉ b2.data →
      getObjectURI b1 o1 = getObjectURI b2 o2 → b1 = b2 ∧ o1 = o2) ∧
    (getObjectURI "a" "b/c" = getObjectURI "a/b" "c" ∧ ("a", "b/c") ≠ ("a/b", "c")) := by
  refine ⟨?_, by decide, by decide⟩
  intro b1 b2 o1 o2 h1 h2 h
  have hd := congrArg String.data h
  rw [getObjectURI_data, getObjectURI_data] at hd
  have hk := append_sep_inj '/' b1.data b2.data o1.data o2.data h1 h2
    (List.append_cancel_left hd)
  exact ⟨String.ext hk.1, String.ext hk.2⟩

/-- C10 at the buckets "b1" and "b1" with the object "img.jpg". -/
theorem C10_getObjectURI_injective_witness :
    '/' ∉ "b1".data ∧ getObjectURI "b1" "img.jpg" = getObjectURI "b1" "img.jpg" ∧
      ("b1" = "b1" ∧ "img.jpg" = "img.jpg") :=
  ⟨by decide, rfl,
    C10_getObjectURI_injective.1 "b1" "b1" "img.jpg" "img.jpg" (by decide) (by decide) rfl⟩

/-! ## Claims on attribute lookup -/

/-- C2: `getAttribute` fails exactly when the message is `nil` or the key is
absent from its attributes; on success it returns the value mapped to the
key, whatever it is; on failure the returned string is empty. -/
theorem C2_getAttribute (key : String) (msg : Option PubsubMessage) :
    ((getAttribute key msg).2 ≠ none ↔
      (msg = none ∨ ∃ m, msg = some m ∧ key ∉ m.Attributes)) ∧
    (∀ m v, msg = some m → (⟨key, v⟩ : Sigma fun _ : String => String) ∈ m.Attributes.entries →
      getAttribute key msg = (v, none)) ∧
    ((getAttribute key msg).2 ≠ none → (getAttribute key msg).1 = "") := by
  cases msg with
  | none => simp [getAttribute, Errorf]
  | some m =>
    cases hl : m.Attributes.lookup key with
    | none =>
      have hk : key ∉ m.Attributes := AList.lookup_eq_none.mp hl
      refine ⟨?_, ?_, ?_⟩
      · simp [getAttribute, hl, Errorf, hk]
      · intro m2 v hm hv
        cases hm
        have : v ∈ m.Attributes.lookup key := AList.mem_lookup_iff.mpr hv
        rw [hl] at this
        cases this
      · simp [getAttribute, hl]
    | some w =>
      have hk : key ∈ m.Attributes := AList.lookup_isSome.mp (by simp [hl])
      refine ⟨?_, ?_, ?_⟩
      · simp [getAttribute, hl, hk]
      · intro m2 v hm hv
        cases hm
        have : v ∈ m.Attributes.lookup key := AList.mem_lookup_iff.mpr hv
        rw [hl] at this
        cases this
        simp [getAttribute, hl]
      · simp [getAttribute, hl]

/-- C2 at a message whose attribute "bucketId" is the empty string: the
lookup succeeds with the empty string. -/
theorem C2_getAttribute_witness :
    getAttribute "bucketId" (some (payload [("bucketId", ""), ("objectId", "o")])) = ("", none) :=
  (C2_getAttribute "bucketId" (some (payload [("bucketId", ""), ("objectId", "o")]))).2.1
    (payload [("bucketId", ""), ("objectId", "o")]) "" rfl (by decide)

/-! ## Claims on the normaliser -/

theorem getD_append_cons {α : Type} (done : List α) (x d : α) (tl : List α) :
    (done ++ x :: tl).getD done.length d = x := by
  induction done with
  | nil => rfl
  | cons a done ih => simpa using ih

theorem set_append_cons {α : Type} (done : List α) (x y : α) (tl : List α) :
    (done ++ x :: tl).set done.length y = done ++ y :: tl := by
  induction done with
  | nil => rfl
  | cons a done ih => simp [ih]

/-- Loop invariant: with `done` filled and zero values behind it, the loop
fills the rest in order. -/
theorem tolabelLoop_fill {F : Type} (percent : F → Int) :
    ∀ (rest : List ( LocalizedObjectAnnotation F)) (done : List labelWithConfidenceScore),
      tolabelLoop percent (rest.map some) done.length
          (done ++ List.replicate rest.length ⟨"", 0⟩)
        = some (done ++ rest.map (toLabel percent))
  | [], done => by simp [tolabelLoop]
  | ann :: rest, done => by
    have ih := tolabelLoop_fill percent rest (done ++ [toLabel percent ann])
    simp only [List.length_append, List.length_singleton, List.append_assoc,
      List.singleton_append] at ih
    simp only [List.map_cons, tolabelLoop, List.length_cons, List.replicate_succ,
      getD_append_cons, set_append_cons]
    exact ih

theorem tolabel_eq_map {F : Type} (percent : F → Int)
    (anns : List ( LocalizedObjectAnnotation F)) :
    tolabelWithConfidenceScore percent (anns.map some) = some (anns.map (toLabel percent)) := by
  have h := tolabelLoop_fill percent anns []
  simpa [tolabelWithConfidenceScore] using h

/-- C3: on every sequence of annotations `tolabelWithConfidenceScore`
returns a sequence of the same length whose i-th label is the name of the
i-th annotation, and the empty sequence gives the empty sequence. -/
theorem C3_tolabel_order_preserving {F : Type} (percent : F → Int)
    (anns : List ( LocalizedObjectAnnotation F)) :
    (∃ labels, tolabelWithConfidenceScore percent (anns.map some) = some labels ∧
      labels = anns.map (fun a => ⟨a.Name, percent a.Score⟩) ∧
      labels.length = anns.length ∧
      (∀ i : Nat, (labels[i]?).map (fun l => l.Label) = (anns[i]?).map (fun a => a.Name))) ∧
    tolabelWithConfidenceScore percent ([] : List (Option ( LocalizedObjectAnnotation F)))
      = some [] := by
  refine ⟨⟨anns.map (toLabel percent), tolabel_eq_map percent anns, rfl, by simp, ?_⟩, rfl⟩
  intro i
  simp only [List.getElem?_map, Option.map_map]
  rfl

/-! ## Claims on the score conversion -/

theorem excessBits_spec (s : Nat) :
    ∀ (fuel k : Nat), s / 2 ^ (k + fuel) < 2 ^ 24 → s / 2 ^ excessBits fuel s k < 2 ^ 24
  | 0, k, h => by simpa [excessBits] using h
  | fuel + 1, k, h => by
    unfold excessBits
    split
    · assumption
    · exact excessBits_spec s fuel (k + 1) (by rw [Nat.add_assoc, Nat.add_comm 1 fuel]; exact h)


/-- The fuel of `roundToFloat32` suffices: what is kept of the magnitude fits
a 24-bit significand. -/
theorem excessBits_fits (s : Nat) : s / 2 ^ excessBits s s 0 < 2 ^ 24 :=
  excessBits_spec s s 0 (by
    rw [Nat.zero_add, Nat.div_eq_of_lt (Nat.lt_two_pow s)]
    decide)

theorem sprintfAux_label (label : String) (confidence : Int) :
    sprintfAux "Label:%s Confidence:%d%%".data [Arg.str label, Arg.int confidence]
      = some ("Label:".data ++ label.data ++ " Confidence:".data ++ formatInt confidence
          ++ "%".data) := by
  simp [sprintfAux]

theorem String_eq (l : labelWithConfidenceScore) :
    l.String = expectedLine l.Label l.Confidence := by
  unfold labelWithConfidenceScore.String Sprintf expectedLine
  rw [sprintfAux_label]
  apply String.ext
  simp

theorem digitChar_ne_newline : ∀ d : Nat, d < 10 → Nat.digitChar d ≠ '\n' := by
  decide

theorem toDigitsCore_no_newline :
    ∀ (fuel n : Nat) (ds : List Char), '\n' ∉ ds → '\n' ∉ Nat.toDigitsCore 10 fuel n ds
  | 0, _, ds, h => by simpa [Nat.toDigitsCore] using h
  | fuel + 1, n, ds, h => by
    have hd : '\n' ∉ Nat.digitChar (n % 10) :: ds := by
      intro hm
      rcases List.mem_cons.mp hm with h1 | h1
      · exact digitChar_ne_newline _ (Nat.mod_lt n (by decide)) h1.symm
      · exact h h1
    unfold Nat.toDigitsCore
    simp only
    split
    · exact hd
    · exact toDigitsCore_no_newline fuel (n / 10) _ hd

theorem formatInt_no_newline (n : Int) : '\n' ∉ formatInt n := by
  cases n with
  | ofNat m => exact toDigitsCore_no_newline _ _ _ (by simp)
  | negSucc m =>
    intro hm
    rcases List.mem_cons.mp hm with h1 | h1
    · exact absurd h1 (by decide)
    · exact toDigitsCore_no_newline _ _ _ (by simp) h1

theorem expectedLine_no_newline (label : String) (confidence : Int)
    (h : '\n' ∉ label.data) : '\n' ∉ (expectedLine label confidence).data := by
  have hf := formatInt_no_newline confidence
  simp only [expectedLine, String.data_append, List.mem_append, not_or]
  refine ⟨⟨⟨⟨by decide, h⟩, by decide⟩, hf⟩, by decide⟩

theorem splitLines_line (line rest : List Char) (h : '\n' ∉ line) :
    splitLines (line ++ '\n' :: rest) = line :: splitLines rest := by
  induction line with
  | nil => simp [splitLines]
  | cons c line ih =>
    have hc : c ≠ '\n' := fun e => h (by simp [e])
    have hl : '\n' ∉ line := fun hm => h (List.mem_cons_of_mem _ hm)
    simp [splitLines, hc, ih hl]

theorem foldl_append_acc :
    ∀ (xs : List String) (acc : String),
      xs.foldl (fun r s => r ++ s) acc = acc ++ xs.foldl (fun r s => r ++ s) ""
  | [], acc => by
    apply String.ext
    simp
  | x :: xs, acc => by
    have h1 := foldl_append_acc xs (acc ++ x)
    have h2 := foldl_append_acc xs ("" ++ x)
    simp only [List.foldl_cons]
    rw [h1, h2]
    apply String.ext
    simp

theorem join_cons (x : String) (xs : List String) :
    String.join (x :: xs) = x ++ String.join xs := by
  simp only [String.join, List.foldl_cons]
  rw [foldl_append_acc]
  apply String.ext
  simp

theorem foldl_append_join (g : labelWithConfidenceScore → String)
    (labels : List labelWithConfidenceScore) :
    labels.foldl (fun wc label => wc ++ g label) "" = String.join (labels.map g) := by
  simp only [String.join, List.foldl_map]

/-- The lines of a text made of newline-free lines, each with its
terminator. -/
theorem splitLines_join :
    ∀ (lines : List String), (∀ l ∈ lines, '\n' ∉ l.data) →
      splitLines (String.join (lines.map fun l => l ++ "\n")).data = lines.map String.data
  | [], _ => by simp [String.join, splitLines]
  | l :: lines, h => by
    have ih := splitLines_join lines (fun x hx => h x (List.mem_cons_of_mem _ hx))
    have hl : '\n' ∉ l.data := h l (List.mem_cons_self _ _)
    rw [List.map_cons, join_cons]
    simp only [String.data_append, List.append_assoc, List.map_cons]
    rw [List.singleton_append, splitLines_line _ _ hl, ih]

theorem parseLines_join (lines : List String) (h : ∀ l ∈ lines, '\n' ∉ l.data) :
    parseLines (String.join (lines.map fun l => l ++ "\n")) = lines := by
  unfold parseLines
  rw [splitLines_join lines h, List.map_map]
  simp [Function.comp_def]

theorem writeToGcs_ok {F : Type} (E : Env F) (bucketID objectID : String)
    (labels : List labelWithConfidenceScore) (h : E.newStorageClient = none) :
    writeToGcs E bucketID objectID labels
      = ([Effect.newStorageClient, Effect.write bucketID objectID
            (String.join (labels.map fun l => expectedLine l.Label l.Confidence ++ "\n"))],
          E.writerClose bucketID objectID
            (String.join (labels.map fun l => expectedLine l.Label l.Confidence ++ "\n"))) := by
  unfold writeToGcs
  simp only [h, Fprintln, foldl_append_join, String_eq]

/-- C5, amended: when the storage client is created and no label contains a
newline, the text `writeToGcs` writes reads back as one line per entry, in
order, each being "Label:", the label, " Confidence:", the confidence in
decimal, "%". -/
theorem C5_writer_round_trip {F : Type} (E : Env F) (bucketID objectID : String)
    (labels : List labelWithConfidenceScore)
    (hclient : E.newStorageClient = none)
    (hlabels : ∀ l ∈ labels, '\n' ∉ l.Label.data) :
    ∃ content,
      (writeToGcs E bucketID objectID labels).1
        = [Effect.newStorageClient, Effect.write bucketID objectID content] ∧
      parseLines content = labels.map fun l =>
        "Label:" ++ l.Label ++ " Confidence:" ++ String.mk (formatInt l.Confidence) ++ "%" := by
  refine ⟨_, by rw [writeToGcs_ok E bucketID objectID labels hclient], ?_⟩
  have h := parseLines_join (labels.map fun l => expectedLine l.Label l.Confidence)
    (by
      intro s hs
      rcases List.mem_map.mp hs with ⟨l, hl, rfl⟩
      exact expectedLine_no_newline _ _ (hlabels l hl))
  rw [List.map_map] at h
  exact h

/-- C5 at the labels ("cat", 92) and ("dog", -3): two lines read back. -/
theorem C5_writer_round_trip_witness :
    ∃ content,
      (writeToGcs (okEnv truncPercent []) "b1" "img.jpg.attributes.txt"
          [⟨"cat", 92⟩, ⟨"dog", -3⟩]).1
        = [Effect.newStorageClient, Effect.write "b1" "img.jpg.attributes.txt" content] ∧
      parseLines content = ["Label:cat Confidence:92%", "Label:dog Confidence:-3%"] :=
  C5_writer_round_trip (okEnv truncPercent []) "b1" "img.jpg.attributes.txt"
    [⟨"cat", 92⟩, ⟨"dog", -3⟩] rfl (by decide)

/-- C5 as stated fails at the single label "a\nb" with confidence 1: the
text written reads back as two lines, neither of them the line of the
entry. -/
theorem C5_newline_label_counterexample :
    (writeToGcs (okEnv truncPercent []) "b1" "img.jpg.attributes.txt" [⟨"a\nb", 1⟩]).1
      = [Effect.newStorageClient,
          Effect.write "b1" "img.jpg.attributes.txt" "Label:a\nb Confidence:1%\n"] ∧
    parseLines "Label:a\nb Confidence:1%\n" = ["Label:a", "b Confidence:1%"] ∧
    parseLines "Label:a\nb Confidence:1%\n" ≠ ["Label:a\nb Confidence:1%"] := by
  decide

/-! ## Claims on the handler -/

theorem getAttribute_of_entry (key v : String) (msg : PubsubMessage)
    (h : (⟨key, v⟩ : Sigma fun _ : String => String) ∈ msg.Attributes.entries) :
    getAttribute key (some msg) = (v, none) := by
  have hl : msg.Attributes.lookup key = some v := AList.mem_lookup_iff.mpr h
  simp [getAttribute, hl]

theorem getAttribute_of_absent (key : String) (msg : PubsubMessage)
    (h : key ∉ msg.Attributes) :
    ∃ err, getAttribute key (some msg) = ("", some err) := by
  have hl : msg.Attributes.lookup key = none := AList.lookup_eq_none.mpr h
  exact ⟨(Sprintf "%s not found in Data.Attributes" [Arg.str key]).getD "",
    by simp only [getAttribute, hl, Errorf]⟩

theorem extractLabels_ok {F : Type} (E : Env F) (objectURI : String)
    (anns : List ( LocalizedObjectAnnotation F))
    (hclient : E.newImageAnnotatorClient = none)
    (hanns : E.localizeObjects objectURI = Except.ok (anns.map some)) :
    extractLabels E objectURI
      = ([Effect.newImageAnnotatorClient, Effect.localizeObjects objectURI,
            Effect.closeImageAnnotatorClient],
          some (anns.map (toLabel E.percent), none)) := by
  simp only [extractLabels, hclient, hanns, tolabel_eq_map]

/-- The handler on a finalize event with both identifiers, up to the call of
the classification client. -/
theorem processEvent_classified {F : Type} (E : Env F) (event : Event) (msg : PubsubMessage)
    (b o : String) (anns : List ( LocalizedObjectAnnotation F))
    (htype : event.Context = some finalizeEventType)
    (hdata : event.Data = Except.ok msg)
    (hb : (⟨"bucketId", b⟩ : Sigma fun _ : String => String) ∈ msg.Attributes.entries)
    (ho : (⟨"objectId", o⟩ : Sigma fun _ : String => String) ∈ msg.Attributes.entries)
    (hclient : E.newImageAnnotatorClient = none)
    (hanns : E.localizeObjects ("gs://" ++ b ++ "/" ++ o) = Except.ok (anns.map some)) :
    processEvent E event =
      match anns.map (toLabel E.percent) with
      | [] => ([Effect.newImageAnnotatorClient, Effect.localizeObjects ("gs://" ++ b ++ "/" ++ o),
            Effect.closeImageAnnotatorClient], Outcome.panicked)
      | first :: rest =>
        match writeToGcs E b (o ++ ".attributes.txt") (first :: rest) with
        | (writes, some err) =>
          ([Effect.newImageAnnotatorClient, Effect.localizeObjects ("gs://" ++ b ++ "/" ++ o),
            Effect.closeImageAnnotatorClient] ++
            Effect.print (LogLine.summary first.Confidence first.Label
              ("gs://" ++ b ++ "/" ++ o)) :: writes ++ [Effect.print (LogLine.raw err)],
            Outcome.returned)
        | (writes, none) =>
          ([Effect.newImageAnnotatorClient, Effect.localizeObjects ("gs://" ++ b ++ "/" ++ o),
            Effect.closeImageAnnotatorClient] ++
            Effect.print (LogLine.summary first.Confidence first.Label
              ("gs://" ++ b ++ "/" ++ o)) :: writes, Outcome.returned) := by
  have h1 := getAttribute_of_entry "bucketId" b msg hb
  have h2 := getAttribute_of_entry "objectId" o msg ho
  have h3 := extractLabels_ok E ("gs://" ++ b ++ "/" ++ o) anns hclient hanns
  simp only [processEvent, htype, hdata, getBucketID, getobjectID, h1, h2, getObjectURI_eq, h3,
    ne_eq, not_true_eq_false, if_false]
  cases List.map (toLabel E.percent) anns <;> rfl

/-- C6, amended: on a finalize event whose attributes map bucketId to `b`
and objectId to `o`, when the classification succeeds with a sequence of
annotations that is not empty and the storage client is created, the handler
submits the locator once, issues exactly one storage write, to bucket `b` at
`o` followed by ".attributes.txt", whose content is one line
"Label:name Confidence:percent%" per annotation, in order, each with its
newline, and returns. -/
theorem C6_success_path {F : Type} (E : Env F) (event : Event) (msg : PubsubMessage)
    (b o : String) (anns : List ( LocalizedObjectAnnotation F))
    (htype : event.Context = some finalizeEventType)
    (hdata : event.Data = Except.ok msg)
    (hb : (⟨"bucketId", b⟩ : Sigma fun _ : String => String) ∈ msg.Attributes.entries)
    (ho : (⟨"objectId", o⟩ : Sigma fun _ : String => String) ∈ msg.Attributes.entries)
    (hclient : E.newImageAnnotatorClient = none)
    (hanns : E.localizeObjects ("gs://" ++ b ++ "/" ++ o) = Except.ok (anns.map some))
    (hne : anns ≠ [])
    (hstorage : E.newStorageClient = none) :
    storageWrites (processEvent E event).1
      = [(b, o ++ ".attributes.txt",
          String.join (anns.map fun a =>
            "Label:" ++ a.Name ++ " Confidence:" ++ String.mk (formatInt (E.percent a.Score))
              ++ "%" ++ "\n"))] ∧
    backendCalls (processEvent E event).1 = ["gs://" ++ b ++ "/" ++ o] ∧
    (processEvent E event).2 = Outcome.returned := by
  rw [processEvent_classified E event msg b o anns htype hdata hb ho hclient hanns]
  cases anns with
  | nil => exact absurd rfl hne
  | cons a rest =>
    simp only [List.map_cons]
    rw [writeToGcs_ok E b (o ++ ".attributes.txt") _ hstorage]
    cases E.writerClose b (o ++ ".attributes.txt")
      (String.join (List.map (fun l => expectedLine l.Label l.Confidence ++ "\n")
        (toLabel E.percent a :: List.map (toLabel E.percent) rest))) <;>
    simp [storageWrites, backendCalls, toLabel, expectedLine, Function.comp_def]

/-- C6 at the event with bucketId "b1" and objectId "img.jpg", the backend
reporting the single annotation "cat" with score 92/100: one write, to
"img.jpg.attributes.txt" in "b1", of the line "Label:cat Confidence:92%". -/
theorem C6_success_path_witness :
    storageWrites (processEvent (okEnv truncPercent [⟨"cat", (92, 100)⟩])
        ⟨some "com.google.storage.finalize",
          Except.ok (payload [("bucketId", "b1"), ("objectId", "img.jpg")])⟩).1
      = [("b1", "img.jpg.attributes.txt", "Label:cat Confidence:92%\n")] ∧
    backendCalls (processEvent (okEnv truncPercent [⟨"cat", (92, 100)⟩])
        ⟨some "com.google.storage.finalize",
          Except.ok (payload [("bucketId", "b1"), ("objectId", "img.jpg")])⟩).1
      = ["gs://b1/img.jpg"] ∧
    (processEvent (okEnv truncPercent [⟨"cat", (92, 100)⟩])
        ⟨some "com.google.storage.finalize",
          Except.ok (payload [("bucketId", "b1"), ("objectId", "img.jpg")])⟩).2
      = Outcome.returned :=
  C6_success_path (okEnv truncPercent [⟨"cat", (92, 100)⟩])
    ⟨some "com.google.storage.finalize",
      Except.ok (payload [("bucketId", "b1"), ("objectId", "img.jpg")])⟩
    (payload [("bucketId", "b1"), ("objectId", "img.jpg")]) "b1" "img.jpg"
    [⟨"cat", (92, 100)⟩] rfl rfl (by decide) (by decide) rfl rfl (by simp) rfl

/-- C6 as stated fails on the event with bucketId "b1" and objectId
"img.jpg": when the annotation "cat" is reported and the storage client
cannot be created the handler returns without a storage write, and when the
classification succeeds with no annotation it issues no storage write
either. -/
theorem C6_no_write_counterexample :
    processEvent (noStorageEnv truncPercent [⟨"cat", (92, 100)⟩])
        ⟨some "com.google.storage.finalize",
          Except.ok (payload [("bucketId", "b1"), ("objectId", "img.jpg")])⟩
      = ([Effect.newImageAnnotatorClient, Effect.localizeObjects "gs://b1/img.jpg",
          Effect.closeImageAnnotatorClient,
          Effect.print (LogLine.summary 92 "cat" "gs://b1/img.jpg"),
          Effect.newStorageClient, Effect.print (LogLine.raw "storage: no credentials")],
        Outcome.returned) ∧
    storageWrites (processEvent (noStorageEnv truncPercent [⟨"cat", (92, 100)⟩])
        ⟨some "com.google.storage.finalize",
          Except.ok (payload [("bucketId", "b1"), ("objectId", "img.jpg")])⟩).1 = [] ∧
    storageWrites (processEvent (okEnv truncPercent [])
        ⟨some "com.google.storage.finalize",
          Except.ok (payload [("bucketId", "b1"), ("objectId", "img.jpg")])⟩).1 = [] := by
  decide

/-- C7 fails on the code for a missing context: there the handler panics
before it prints or returns, with no storage write and no backend call.  On
an event whose type is not "com.google.storage.finalize" the handler prints
one line and returns; it issues no storage write and no backend call,
whatever the payload and the services are. -/
theorem C7_unsupported_event {F : Type} (E : Env F) (event : Event) :
    (event.Context = none → processEvent E event = ([], Outcome.panicked)) ∧
    (∀ t, event.Context = some t → t ≠ "com.google.storage.finalize" →
      processEvent E event = ([Effect.print (LogLine.invalidType t)], Outcome.returned) ∧
      storageWrites (processEvent E event).1 = [] ∧
      backendCalls (processEvent E event).1 = [] ∧
      (∀ (E2 : Env F) (data : Except String PubsubMessage),
        processEvent E2 ⟨event.Context, data⟩ = processEvent E event)) := by
  refine ⟨?_, ?_⟩
  · intro h
    simp [processEvent, h]
  · intro t h ht
    have ht2 : t ≠ finalizeEventType := ht
    simp [processEvent, h, ht2, storageWrites, backendCalls]

/-- C7 at an event without context, which panics, and at an event of type
"com.google.storage.delete", which is dropped. -/
theorem C7_unsupported_event_witness :
    processEvent (okEnv truncPercent [⟨"cat", (92, 100)⟩])
        ⟨none, Except.ok (payload [("bucketId", "b1"), ("objectId", "img.jpg")])⟩
      = ([], Outcome.panicked) ∧
    processEvent (okEnv truncPercent [⟨"cat", (92, 100)⟩])
        ⟨some "com.google.storage.delete",
          Except.ok (payload [("bucketId", "b1"), ("objectId", "img.jpg")])⟩
      = ([Effect.print (LogLine.invalidType "com.google.storage.delete")], Outcome.returned) :=
  ⟨(C7_unsupported_event (okEnv truncPercent [⟨"cat", (92, 100)⟩])
      ⟨none, Except.ok (payload [("bucketId", "b1"), ("objectId", "img.jpg")])⟩).1 rfl,
    ((C7_unsupported_event (okEnv truncPercent [⟨"cat", (92, 100)⟩])
      ⟨some "com.google.storage.delete",
        Except.ok (payload [("bucketId", "b1"), ("objectId", "img.jpg")])⟩).2
      "com.google.storage.delete" rfl (by decide)).1⟩

/-- C8: on a finalize event whose decoded payload lacks bucketId or lacks
objectId, the handler prints one line and returns; it issues no storage
write and no backend call. -/
theorem C8_missing_identifier_dropped {F : Type} (E : Env F) (event : Event)
    (msg : PubsubMessage)
    (htype : event.Context = some finalizeEventType)
    (hdata : event.Data = Except.ok msg)
    (hmissing : "bucketId" ∉ msg.Attributes ∨ "objectId" ∉ msg.Attributes) :
    (∃ line, processEvent E event = ([Effect.print line], Outcome.returned)) ∧
    storageWrites (processEvent E event).1 = [] ∧
    backendCalls (processEvent E event).1 = [] := by
  have key : ∃ line, processEvent E event = ([Effect.print line], Outcome.returned) := by
    by_cases hb : "bucketId" ∈ msg.Attributes
    · have ho : "objectId" ∉ msg.Attributes := hmissing.resolve_left (fun h => h hb)
      obtain ⟨err, he⟩ := getAttribute_of_absent "objectId" msg ho
      cases hl : msg.Attributes.lookup "bucketId" with
      | none => exact absurd hb (AList.lookup_eq_none.mp hl)
      | some b =>
        have h1 : getAttribute "bucketId" (some msg) = (b, none) := by
          simp [getAttribute, hl]
        exact ⟨LogLine.raw err, by
          simp only [processEvent, htype, hdata, getBucketID, getobjectID, h1, he,
            ne_eq, not_true_eq_false, if_false]⟩
    · obtain ⟨err, he⟩ := getAttribute_of_absent "bucketId" msg hb
      exact ⟨LogLine.raw err, by
        simp only [processEvent, htype, hdata, getBucketID, he,
          ne_eq, not_true_eq_false, if_false]⟩
  obtain ⟨line, hline⟩ := key
  exact ⟨⟨line, hline⟩, by simp [hline, storageWrites], by simp [hline, backendCalls]⟩

/-- C8 at a finalize event whose payload has bucketId and no objectId. -/
theorem C8_missing_identifier_dropped_witness :
    storageWrites (processEvent (okEnv truncPercent [⟨"cat", (92, 100)⟩])
        ⟨some "com.google.storage.finalize", Except.ok (payload [("bucketId", "b1")])⟩).1 = [] ∧
    backendCalls (processEvent (okEnv truncPercent [⟨"cat", (92, 100)⟩])
        ⟨some "com.google.storage.finalize", Except.ok (payload [("bucketId", "b1")])⟩).1 = [] :=
  (C8_missing_identifier_dropped (okEnv truncPercent [⟨"cat", (92, 100)⟩])
    ⟨some "com.google.storage.finalize", Except.ok (payload [("bucketId", "b1")])⟩
    (payload [("bucketId", "b1")]) rfl rfl (Or.inr (by decide))).2

/-- C9 fails on the code: on a finalize event with both identifiers, when
the classification succeeds with no annotation, the handler panics on the
access to the first label, after the backend call and before any storage
write. -/
theorem C9_empty_result_panics {F : Type} (E : Env F) (event : Event) (msg : PubsubMessage)
    (b o : String)
    (htype : event.Context = some finalizeEventType)
    (hdata : event.Data = Except.ok msg)
    (hb : (⟨"bucketId", b⟩ : Sigma fun _ : String => String) ∈ msg.Attributes.entries)
    (ho : (⟨"objectId", o⟩ : Sigma fun _ : String => String) ∈ msg.Attributes.entries)
    (hclient : E.newImageAnnotatorClient = none)
    (hanns : E.localizeObjects ("gs://" ++ b ++ "/" ++ o) = Except.ok []) :
    processEvent E event
      = ([Effect.newImageAnnotatorClient, Effect.localizeObjects ("gs://" ++ b ++ "/" ++ o),
          Effect.closeImageAnnotatorClient], Outcome.panicked) := by
  rw [processEvent_classified E event msg b o [] htype hdata hb ho hclient hanns]
  rfl

/-- C9 at the event with bucketId "b1" and objectId "img.jpg", the backend
reporting no annotation. -/
theorem C9_empty_result_panics_witness :
    processEvent (okEnv truncPercent [])
        ⟨some "com.google.storage.finalize",
          Except.ok (payload [("bucketId", "b1"), ("objectId", "img.jpg")])⟩
      = ([Effect.newImageAnnotatorClient, Effect.localizeObjects "gs://b1/img.jpg",
          Effect.closeImageAnnotatorClient], Outcome.panicked) :=
  C9_empty_result_panics (okEnv truncPercent [])
    ⟨some "com.google.storage.finalize",
      Except.ok (payload [("bucketId", "b1"), ("objectId", "img.jpg")])⟩
    (payload [("bucketId", "b1"), ("objectId", "img.jpg")]) "b1" "img.jpg"
    rfl rfl (by decide) (by decide) rfl rfl

end LabelDetection
